import Mathlib

/-!
Verification development for the ImgComp image-comparison utility.

The Go source is shallowly embedded here:
* a Go `image.Image` is a bounds rectangle (integer `Min`/`Max` corners, as in
  `image.Rectangle`) together with the 16-bit alpha-premultiplied channel view
  returned by `Color.RGBA()` at each coordinate;
* the 8-bit `image.RGBA` buffers produced by the transforms are grids of stored
  `color.RGBA` values;
* Go `uint32`/`uint64` arithmetic is modelled with `Nat` (the quantities involved
  stay far below the word size: channels are at most `0xffff` and the diff
  accumulator is bounded by `765` per pixel);
* `float64`/`float32` arithmetic is modelled with exact rationals `ℚ`, with
  `Int.floor` for Go's truncating float-to-int conversion on non-negative values.
-/

namespace ImgComp

/-- The quadruple returned by Go's `Color.RGBA()`: alpha-premultiplied channels
in the 16-bit range `[0, 0xffff]`. -/
structure Pix where
  r : Nat
  g : Nat
  b : Nat
  a : Nat
deriving DecidableEq, Repr

/-- A stored 8-bit `color.RGBA` value, as kept in an `image.RGBA` buffer. -/
structure RGBA8 where
  r : Nat
  g : Nat
  b : Nat
  a : Nat
deriving DecidableEq, Repr

/-- A Go `image.Image`: its `Bounds()` rectangle and its `At(x, y).RGBA()` view. -/
structure Img where
  minX : Int
  minY : Int
  maxX : Int
  maxY : Int
  At : Int → Int → Pix

/-- An 8-bit `image.RGBA` output buffer with its bounds and stored pixels.
Coordinates outside the bounds read as the zero (transparent) pixel, as
`image.RGBA.At` does. -/
structure Img8 where
  minX : Int
  minY : Int
  maxX : Int
  maxY : Int
  At8 : Int → Int → RGBA8

/-- Go `Rectangle.Dx()`. -/
def Img.Dx (i : Img) : Int := i.maxX - i.minX

/-- Go `Rectangle.Dy()`. -/
def Img.Dy (i : Img) : Int := i.maxY - i.minY

/-- An image is well formed when every `RGBA()` colour channel respects the
`color.Color` contract of lying in `[0, 0xffff]`. -/
def Img.Wf (i : Img) : Prop :=
  ∀ x y, (i.At x y).r ≤ 65535 ∧ (i.At x y).g ≤ 65535 ∧ (i.At x y).b ≤ 65535

/-- Go `Rectangle.Empty()`: the rectangle contains no points. -/
def rectEmptyB (i : Img) : Bool :=
  i.maxX ≤ i.minX || i.maxY ≤ i.minY

/-- Go `Rectangle.Eq(s)`: the two rectangles contain the same set of points
(identical corners, or both empty). -/
def rectEqB (i j : Img) : Bool :=
  (i.minX == j.minX && i.minY == j.minY && i.maxX == j.maxX && i.maxY == j.maxY)
    || (rectEmptyB i && rectEmptyB j)

/-- The `ScalingAlgorithm` enumeration from `util/utils.go`. -/
inductive ScalingAlgorithm where
  | bilinear
  | nearestNeighbor
deriving DecidableEq, Repr

/-- The constants `ImageMaxWidth` from `util/utils.go`. -/
def imageMaxWidth : Int := 400

/-- The constants `ImageMaxHeight` from `util/utils.go`. -/
def imageMaxHeight : Int := 400

/-- The `absDiff` helper from `util/utils.go`: absolute difference of two
unsigned values. -/
def absDiff (a b : Nat) : Nat :=
  if a > b then a - b else b - a

/-- One channel delta of the diff loop: `absDiff(c1, c2) >> 8`, the bit-exact
truncation of the 16-bit absolute difference into the 8-bit domain. -/
def chanDelta (c1 c2 : Nat) : Nat := absDiff c1 c2 >>> 8

/-- One amplified display channel: `uint8(math.Min(float64(d)*5.0, 255))`.
For a natural `d` the float product `5.0 * d` is the exact integer `5 * d`,
so the amplified channel is `min (5 * d) 255`. -/
def ampChan (d : Nat) : Nat := min (5 * d) 255

/-- The `color.RGBA` value written by `diff.Set` for one pixel of the diff
visualization, covering both the monochrome and the normal branch of
`ComputeImageDiffFast`. -/
def diffPix (mono : Bool) (p1 p2 : Pix) : RGBA8 :=
  let dr := chanDelta p1.r p2.r
  let dg := chanDelta p1.g p2.g
  let db := chanDelta p1.b p2.b
  if mono then
    if dr = 0 && dg = 0 && db = 0 then ⟨0, 0, 0, 255⟩ else ⟨240, 0, 0, 255⟩
  else
    ⟨ampChan dr, ampChan dg, ampChan db, 255⟩

/-- The contribution of one pixel to `totalDiff`: the sum of the three
unamplified truncated channel deltas. -/
def pixDelta (p1 p2 : Pix) : Nat :=
  chanDelta p1.r p2.r + chanDelta p1.g p2.g + chanDelta p1.b p2.b

/-- The pixel coordinates visited by the diff loop of `ComputeImageDiffFast`:
`y` from `bounds.Min.Y` (exclusive `bounds.Max.Y`) outer, `x` inner. -/
def boundsPoints (i : Img) : List (Int × Int) :=
  (List.range i.Dy.toNat).flatMap fun yi =>
    (List.range i.Dx.toNat).map fun xi => (i.minX + Int.ofNat xi, i.minY + Int.ofNat yi)

/-- The bounds-reconciliation step of `ComputeImageDiffFast`: if the second
image's bounds differ from the first's, the second image is resized (by the
third-party `imaging.Resize`, supplied here as the `resample` parameter) to the
first image's width and height. -/
def reconciled (resample : ScalingAlgorithm → Img → Int → Int → Img)
    (algo : ScalingAlgorithm) (img1 img2 : Img) : Img :=
  if rectEqB img2 img1 then img2 else resample algo img2 img1.Dx img1.Dy

/-- The `totalDiff` accumulator of `ComputeImageDiffFast`: the sum over all
visited pixels of the three unamplified truncated channel deltas. -/
def diffTotal (resample : ScalingAlgorithm → Img → Int → Int → Img)
    (algo : ScalingAlgorithm) (img1 img2 : Img) : Nat :=
  let img22 := reconciled resample algo img1 img2
  ((boundsPoints img1).map fun p => pixDelta (img1.At p.1 p.2) (img22.At p.1 p.2)).sum

/-- The triple returned by `ComputeImageDiffFast`: the diff visualization, the
mean absolute error and the pixel count. -/
structure DiffResult where
  diffImg : Img8
  mae : ℚ
  pixelCount : Nat

/-- The `ComputeImageDiffFast` function from `util/utils.go`. The loop writes
each in-bounds pixel of the freshly allocated `image.NewRGBA(bounds)` buffer
exactly once, so the final buffer is rendered pointwise; out-of-bounds reads of
the buffer are the zero pixel. `mae` is `float64(totalDiff) /
float64(pixelCount*3)`, modelled as exact rational division. -/
def computeImageDiffFast (resample : ScalingAlgorithm → Img → Int → Int → Img)
    (img1 img2 : Img) (algo : ScalingAlgorithm) (mono : Bool) : DiffResult :=
  let img22 := reconciled resample algo img1 img2
  let n := (boundsPoints img1).length
  { diffImg :=
      { minX := img1.minX, minY := img1.minY, maxX := img1.maxX, maxY := img1.maxY,
        At8 := fun x y =>
          if img1.minX ≤ x ∧ x < img1.maxX ∧ img1.minY ≤ y ∧ y < img1.maxY then
            diffPix mono (img1.At x y) (img22.At x y)
          else ⟨0, 0, 0, 0⟩ },
    mae := (diffTotal resample algo img1 img2 : ℚ) / ((n * 3 : Nat) : ℚ),
    pixelCount := n }

/-- Conversion of a 16-bit `RGBA()` colour to the stored 8-bit `color.RGBA`
value, as Go's `color.RGBAModel` (and the `draw.Src` copy into an `image.RGBA`
buffer) performs it: each channel is shifted right by 8. This is the identity
on colours that originate from 8-bit images. -/
def pixTo8 (p : Pix) : RGBA8 :=
  ⟨p.r >>> 8, p.g >>> 8, p.b >>> 8, p.a >>> 8⟩

/-- The ratio clamping at the top of `CropImageFast`: `ratio = max(0, ratio)`
followed by `if ratio > 1 { ratio = 1 }`. -/
def clampRatio (q : ℚ) : ℚ :=
  let q1 := max 0 q
  if q1 > 1 then 1 else q1

/-- The intermediate image built by `CropImageFast` before the final
`RescaleImageFast` call: `endX = int(float64(w) * ratio)` (truncation of a
non-negative product, i.e. the floor), `destRect = Rect(0, 0, endX, h)`, then
`draw.Draw(croppedImage, destRect, *src, image.Point{}, draw.Src)` into a fresh
`image.NewRGBA(Rect(0, 0, w, h))`. Per Go's `draw` clipping with source point
`(0, 0)`, the copied region is `destRect ∩ dstBounds ∩ src.Bounds()`, each
copied pixel is the `color.RGBA` conversion of the source pixel at the same
coordinates, and everything else stays the zero (transparent) pixel. -/
def cropImageFastPre (src : Img) (q : ℚ) : Img8 :=
  let w := src.Dx
  let h := src.Dy
  let endX : Int := Int.floor ((w : ℚ) * clampRatio q)
  { minX := 0, minY := 0, maxX := w, maxY := h,
    At8 := fun x y =>
      if 0 ≤ x ∧ x < endX ∧ 0 ≤ y ∧ y < h ∧ x < w ∧
          src.minX ≤ x ∧ x < src.maxX ∧ src.minY ≤ y ∧ y < src.maxY then
        pixTo8 (src.At x y)
      else ⟨0, 0, 0, 0⟩ }

/-- The `GetScaledBounds` computation from `util/utils.go`, as a function of
the source width and height (the Go function reads them off the image's
bounds); the `float32` arithmetic is modelled with exact rationals. -/
def getScaledBoundsWH (w h : Int) : ℚ × ℚ :=
  if w > imageMaxWidth ∨ h > imageMaxHeight then
    let scaleX : ℚ := (w : ℚ) / 400
    let scaleY : ℚ := (h : ℚ) / 400
    if scaleX > scaleY then (400, (h : ℚ) / scaleX)
    else ((w : ℚ) / scaleY, 400)
  else ((w : ℚ), (h : ℚ))

/-- The `GetScaledBounds` function from `util/utils.go`. -/
def getScaledBounds (src : Img) : ℚ × ℚ :=
  getScaledBoundsWH src.Dx src.Dy

/-! The `LoadImage` function interacts with the filesystem and an external
process. It is embedded as a function of an environment describing the outcome
of those interactions, returning its result together with the ordered trace of
side effects it performs. `exec.Command(name, ...)` with a bare name resolves
the binary via `LookPath` when the `Cmd` is constructed and, per the documented
`os/exec` semantics, `Run` returns that lookup error without ever starting a
process; this is modelled by the `toolOnPath` flag producing an error with an
empty effect trace. -/

/-- One observable side effect of `LoadImage`. -/
inductive FsEvent where
  | spawn : String → List String → FsEvent
  | writeFile : String → FsEvent
  | removeFile : String → FsEvent
  | openFile : String → FsEvent
deriving DecidableEq, Repr

/-- Errors `LoadImage` can propagate. -/
inductive LoadErr where
  /-- The external binary was not found on `PATH` (`exec.ErrNotFound`). -/
  | execNotFound : LoadErr
  /-- The external process ran but exited non-zero. -/
  | exitFailure : LoadErr
  /-- The image decoder (`imaging.Open`) failed. -/
  | decodeFailure : LoadErr
deriving DecidableEq, Repr

/-- The environment a `LoadImage` call runs in: whether the `djxl` binary
resolves on `PATH`, whether the conversion process exits zero, whether it
writes (possibly partial) output before exiting, and whether the image decode
succeeds. -/
structure ExecEnv where
  toolOnPath : Bool
  convertExitOk : Bool
  convertWrites : Bool
  decodeOk : Bool

/-- Scan of `Go filepath.Ext` over the reversed character list: walk from the
end of the path; a path separator before any dot means no extension, the first
dot ends the scan with the suffix from that dot. -/
def extFromRev : List Char → List Char → String
  | [], _ => ""
  | c :: rest, acc =>
    if c = '/' then ""
    else if c = '.' then ⟨c :: acc⟩
    else extFromRev rest (c :: acc)

/-- Go's `filepath.Ext`: the suffix beginning at the final dot in the final
slash-separated element of the path, empty if there is no dot. -/
def goExt (path : String) : String :=
  extFromRev path.data.reverse []

/-- The `LoadImage` function from `util/utils.go`, returning its result and
the ordered trace of side effects. For a `.jxl` path it runs
`exec.Command("djxl", path, tmpFile)`; on a non-nil `Run` error it returns that
error immediately — the `defer os.Remove(tmpFile)` on the next line has not
been registered yet at that point, so no removal happens. On a successful
conversion the deferred removal is registered and runs after `imaging.Open`,
whether or not the decode succeeds. -/
def loadImage (env : ExecEnv) (path : String) : Except LoadErr Unit × List FsEvent :=
  if goExt path = ".jxl" then
    let tmpFile := path ++ ".converted.png"
    if env.toolOnPath then
      let runEv := [FsEvent.spawn "djxl" [path, tmpFile]] ++
        (if env.convertWrites then [FsEvent.writeFile tmpFile] else [])
      if env.convertExitOk then
        ((if env.decodeOk then Except.ok () else Except.error LoadErr.decodeFailure),
          runEv ++ [FsEvent.openFile tmpFile, FsEvent.removeFile tmpFile])
      else
        (Except.error LoadErr.exitFailure, runEv)
    else
      (Except.error LoadErr.execNotFound, [])
  else
    ((if env.decodeOk then Except.ok () else Except.error LoadErr.decodeFailure),
      [FsEvent.openFile path])

/-! Concrete images and resamplers used by the witnesses and counterexamples. -/

/-- A 1×1 image whose single pixel is opaque black. -/
def blackImg1 : Img := ⟨0, 0, 1, 1, fun _ _ => ⟨0, 0, 0, 65535⟩⟩

/-- A 1×1 image whose single pixel is opaque white. -/
def whiteImg1 : Img := ⟨0, 0, 1, 1, fun _ _ => ⟨65535, 65535, 65535, 65535⟩⟩

/-- A 2×1 image: black pixel on the left, white pixel on the right. -/
def blackWhiteImg2 : Img :=
  ⟨0, 0, 2, 1, fun x _ => if x = 0 then ⟨0, 0, 0, 65535⟩ else ⟨65535, 65535, 65535, 65535⟩⟩

/-- An image with the empty bounds rectangle `Rect(0, 0, 0, 0)`. -/
def emptyImg : Img := ⟨0, 0, 0, 0, fun _ _ => ⟨0, 0, 0, 0⟩⟩

/-- A 1×1 all-white image whose bounds rectangle is `Rect(1, 0, 2, 1)`:
well formed in Go (e.g. a `SubImage`), but its origin is not `(0, 0)`. -/
def offOriginImg : Img := ⟨1, 0, 2, 1, fun _ _ => ⟨65535, 65535, 65535, 65535⟩⟩

/-- A trivial stand-in resampler (identity on the image) used to instantiate
the `resample` parameter in witnesses whose claims do not depend on the
resampling semantics. -/
def idResample : ScalingAlgorithm → Img → Int → Int → Img := fun _ i _ _ => i

/-! Helper lemmas. -/

theorem length_flatMap_const {α β : Type} (l : List α) (f : α → List β)
    (m : Nat) (h : ∀ a, (f a).length = m) : (l.flatMap f).length = l.length * m := by
  induction l with
  | nil => simp
  | cons a t ih => simp [List.flatMap_cons, h, ih, Nat.succ_mul, Nat.add_comm]

/-- The diff loop visits exactly `Dy * Dx` pixels. -/
theorem boundsPoints_length (i : Img) :
    (boundsPoints i).length = i.Dy.toNat * i.Dx.toNat := by
  unfold boundsPoints
  rw [length_flatMap_const _ _ i.Dx.toNat
    (fun a => by rw [List.length_map, List.length_range]), List.length_range]

theorem absDiff_le {a b m : Nat} (ha : a ≤ m) (hb : b ≤ m) : absDiff a b ≤ m := by
  unfold absDiff; split <;> omega

theorem absDiff_comm (a b : Nat) : absDiff a b = absDiff b a := by
  unfold absDiff; split <;> split <;> omega

/-- A truncated channel delta of two in-range channels is at most 255. -/
theorem chanDelta_le255 {c1 c2 : Nat} (h1 : c1 ≤ 65535) (h2 : c2 ≤ 65535) :
    chanDelta c1 c2 ≤ 255 := by
  unfold chanDelta
  rw [Nat.shiftRight_eq_div_pow]
  have := absDiff_le h1 h2
  omega

theorem chanDelta_comm (c1 c2 : Nat) : chanDelta c1 c2 = chanDelta c2 c1 := by
  unfold chanDelta; rw [absDiff_comm]

/-- A pixel's contribution to `totalDiff` is at most `3 * 255 = 765` for
well-formed pixels. -/
theorem pixDelta_le765 {p1 p2 : Pix}
    (h1 : p1.r ≤ 65535 ∧ p1.g ≤ 65535 ∧ p1.b ≤ 65535)
    (h2 : p2.r ≤ 65535 ∧ p2.g ≤ 65535 ∧ p2.b ≤ 65535) :
    pixDelta p1 p2 ≤ 765 := by
  unfold pixDelta
  have := chanDelta_le255 h1.1 h2.1
  have := chanDelta_le255 h1.2.1 h2.2.1
  have := chanDelta_le255 h1.2.2 h2.2.2
  omega

theorem pixDelta_comm (p1 p2 : Pix) : pixDelta p1 p2 = pixDelta p2 p1 := by
  unfold pixDelta
  rw [chanDelta_comm p1.r, chanDelta_comm p1.g, chanDelta_comm p1.b]

theorem sum_le_length_mul (l : List Nat) (m : Nat) (h : ∀ x ∈ l, x ≤ m) :
    l.sum ≤ l.length * m := by
  have := List.sum_le_card_nsmul l m h
  simpa [smul_eq_mul, Nat.mul_comm] using this

/-- The reconciled second image is well formed when the second image is and
the resampler preserves well-formedness. -/
theorem reconciled_wf (resample : ScalingAlgorithm → Img → Int → Int → Img)
    (algo : ScalingAlgorithm) (img1 img2 : Img) (h2 : img2.Wf)
    (hres : ∀ a im w h, im.Wf → (resample a im w h).Wf) :
    (reconciled resample algo img1 img2).Wf := by
  unfold reconciled
  split
  · exact h2
  · exact hres _ _ _ _ h2

/-- C1: for every pair of images and every pixel inside the first image's
bounds, the non-monochrome diff visualization has per channel the value
`min(5 * ((|c1 - c2| on the 16-bit channels) >>> 8), 255)` — the shift is
bit-exact truncation, and `5 * d` is the exact value of the float product
`5.0 * d` so the floor in the claim is the identity — and the alpha channel of
every such output pixel is exactly 255. The second colour is read from the
bounds-reconciled second image, as in the source loop. -/
theorem diff_pixel_formula (resample : ScalingAlgorithm → Img → Int → Int → Img)
    (algo : ScalingAlgorithm) (img1 img2 : Img) (x y : Int)
    (hx1 : img1.minX ≤ x) (hx2 : x < img1.maxX)
    (hy1 : img1.minY ≤ y) (hy2 : y < img1.maxY) :
    (computeImageDiffFast resample img1 img2 algo false).diffImg.At8 x y =
      ⟨min (5 * (absDiff (img1.At x y).r
            ((reconciled resample algo img1 img2).At x y).r >>> 8)) 255,
       min (5 * (absDiff (img1.At x y).g
            ((reconciled resample algo img1 img2).At x y).g >>> 8)) 255,
       min (5 * (absDiff (img1.At x y).b
            ((reconciled resample algo img1 img2).At x y).b >>> 8)) 255,
       255⟩ := by
  have hib : img1.minX ≤ x ∧ x < img1.maxX ∧ img1.minY ≤ y ∧ y < img1.maxY :=
    ⟨hx1, hx2, hy1, hy2⟩
  simp only [computeImageDiffFast, if_pos hib, diffPix, ampChan, chanDelta,
    Bool.false_eq_true, if_false]

/-- Witness for `diff_pixel_formula` at a concrete pixel: a 1×1 black first
image against a 1×1 white second image. -/
theorem diff_pixel_formula_witness :
    blackImg1.minX ≤ 0 ∧ (0:Int) < blackImg1.maxX ∧
    blackImg1.minY ≤ 0 ∧ (0:Int) < blackImg1.maxY ∧
    (computeImageDiffFast idResample blackImg1 whiteImg1
        ScalingAlgorithm.bilinear false).diffImg.At8 0 0 =
      ⟨min (5 * (absDiff (blackImg1.At 0 0).r
            ((reconciled idResample ScalingAlgorithm.bilinear blackImg1 whiteImg1).At 0 0).r >>> 8)) 255,
       min (5 * (absDiff (blackImg1.At 0 0).g
            ((reconciled idResample ScalingAlgorithm.bilinear blackImg1 whiteImg1).At 0 0).g >>> 8)) 255,
       min (5 * (absDiff (blackImg1.At 0 0).b
            ((reconciled idResample ScalingAlgorithm.bilinear blackImg1 whiteImg1).At 0 0).b >>> 8)) 255,
       255⟩ :=
  ⟨by decide, by decide, by decide, by decide,
    diff_pixel_formula idResample ScalingAlgorithm.bilinear blackImg1 whiteImg1 0 0
      (by decide) (by decide) (by decide) (by decide)⟩

/-- C3: with the monochrome flag set, each in-bounds output pixel is black
when all three truncated channel deltas are zero, and exactly `(240, 0, 0)`
when any delta is non-zero, independent of the magnitude. -/
theorem diff_monochrome_spec (resample : ScalingAlgorithm → Img → Int → Int → Img)
    (algo : ScalingAlgorithm) (img1 img2 : Img) (x y : Int)
    (hx1 : img1.minX ≤ x) (hx2 : x < img1.maxX)
    (hy1 : img1.minY ≤ y) (hy2 : y < img1.maxY) :
    (chanDelta (img1.At x y).r ((reconciled resample algo img1 img2).At x y).r = 0 ∧
     chanDelta (img1.At x y).g ((reconciled resample algo img1 img2).At x y).g = 0 ∧
     chanDelta (img1.At x y).b ((reconciled resample algo img1 img2).At x y).b = 0 →
      (computeImageDiffFast resample img1 img2 algo true).diffImg.At8 x y = ⟨0, 0, 0, 255⟩) ∧
    (¬(chanDelta (img1.At x y).r ((reconciled resample algo img1 img2).At x y).r = 0 ∧
       chanDelta (img1.At x y).g ((reconciled resample algo img1 img2).At x y).g = 0 ∧
       chanDelta (img1.At x y).b ((reconciled resample algo img1 img2).At x y).b = 0) →
      (computeImageDiffFast resample img1 img2 algo true).diffImg.At8 x y = ⟨240, 0, 0, 255⟩) := by
  have hib : img1.minX ≤ x ∧ x < img1.maxX ∧ img1.minY ≤ y ∧ y < img1.maxY :=
    ⟨hx1, hx2, hy1, hy2⟩
  constructor
  · intro hz
    simp only [computeImageDiffFast, if_pos hib, diffPix]
    simp [hz.1, hz.2.1, hz.2.2]
  · intro hnz
    simp only [computeImageDiffFast, if_pos hib, diffPix]
    have : ¬(chanDelta (img1.At x y).r ((reconciled resample algo img1 img2).At x y).r = 0 &&
        chanDelta (img1.At x y).g ((reconciled resample algo img1 img2).At x y).g = 0 &&
        chanDelta (img1.At x y).b ((reconciled resample algo img1 img2).At x y).b = 0) = true := by
      simpa [Bool.and_eq_true, decide_eq_true_eq] using hnz
    simp [this]

/-- Witness for `diff_monochrome_spec` at a concrete pixel of a 1×1 black
first image against a 1×1 white second image (a differing pixel). -/
theorem diff_monochrome_spec_witness :
    blackImg1.minX ≤ 0 ∧ (0:Int) < blackImg1.maxX ∧
    blackImg1.minY ≤ 0 ∧ (0:Int) < blackImg1.maxY ∧
    ((chanDelta (blackImg1.At 0 0).r
        ((reconciled idResample ScalingAlgorithm.bilinear blackImg1 whiteImg1).At 0 0).r = 0 ∧
      chanDelta (blackImg1.At 0 0).g
        ((reconciled idResample ScalingAlgorithm.bilinear blackImg1 whiteImg1).At 0 0).g = 0 ∧
      chanDelta (blackImg1.At 0 0).b
        ((reconciled idResample ScalingAlgorithm.bilinear blackImg1 whiteImg1).At 0 0).b = 0 →
      (computeImageDiffFast idResample blackImg1 whiteImg1
          ScalingAlgorithm.bilinear true).diffImg.At8 0 0 = ⟨0, 0, 0, 255⟩) ∧
     (¬(chanDelta (blackImg1.At 0 0).r
          ((reconciled idResample ScalingAlgorithm.bilinear blackImg1 whiteImg1).At 0 0).r = 0 ∧
        chanDelta (blackImg1.At 0 0).g
          ((reconciled idResample ScalingAlgorithm.bilinear blackImg1 whiteImg1).At 0 0).g = 0 ∧
        chanDelta (blackImg1.At 0 0).b
          ((reconciled idResample ScalingAlgorithm.bilinear blackImg1 whiteImg1).At 0 0).b = 0) →
      (computeImageDiffFast idResample blackImg1 whiteImg1
          ScalingAlgorithm.bilinear true).diffImg.At8 0 0 = ⟨240, 0, 0, 255⟩)) :=
  ⟨by decide, by decide, by decide, by decide,
    diff_monochrome_spec idResample ScalingAlgorithm.bilinear blackImg1 whiteImg1 0 0
      (by decide) (by decide) (by decide) (by decide)⟩

/-- C10: toggling the monochrome flag never changes the returned mean absolute
error or pixel count; the flag only affects the visualization image. -/
theorem mono_metrics_invariant (resample : ScalingAlgorithm → Img → Int → Int → Img)
    (img1 img2 : Img) (algo : ScalingAlgorithm) :
    (computeImageDiffFast resample img1 img2 algo true).mae =
      (computeImageDiffFast resample img1 img2 algo false).mae ∧
    (computeImageDiffFast resample img1 img2 algo true).pixelCount =
      (computeImageDiffFast resample img1 img2 algo false).pixelCount :=
  ⟨rfl, rfl⟩

/-- C2: for a first image with non-empty bounds (and channel-range-respecting
images and resampler), the pixel count is the width times the height of the
first image's bounds, the mean absolute error is `totalDiff / (pixelCount*3)`
with `totalDiff` the sum of the unamplified truncated channel deltas, and the
mean absolute error lies in `[0, 255]`. -/
theorem diff_metrics_spec (resample : ScalingAlgorithm → Img → Int → Int → Img)
    (img1 img2 : Img) (algo : ScalingAlgorithm) (mono : Bool)
    (hw : 0 < img1.Dx) (hh : 0 < img1.Dy)
    (h1 : img1.Wf) (h2 : img2.Wf)
    (hres : ∀ a im w h, im.Wf → (resample a im w h).Wf) :
    (computeImageDiffFast resample img1 img2 algo mono).pixelCount =
      img1.Dx.toNat * img1.Dy.toNat ∧
    (computeImageDiffFast resample img1 img2 algo mono).mae =
      (diffTotal resample algo img1 img2 : ℚ) /
        (((computeImageDiffFast resample img1 img2 algo mono).pixelCount * 3 : Nat) : ℚ) ∧
    0 ≤ (computeImageDiffFast resample img1 img2 algo mono).mae ∧
    (computeImageDiffFast resample img1 img2 algo mono).mae ≤ 255 := by
  have hcount : (computeImageDiffFast resample img1 img2 algo mono).pixelCount =
      img1.Dx.toNat * img1.Dy.toNat := by
    show (boundsPoints img1).length = _
    rw [boundsPoints_length, Nat.mul_comm]
  refine ⟨hcount, rfl, ?_, ?_⟩
  · exact div_nonneg (by positivity) (by positivity)
  · have h22 := reconciled_wf resample algo img1 img2 h2 hres
    have hbound : diffTotal resample algo img1 img2 ≤ (boundsPoints img1).length * 765 := by
      unfold diffTotal
      have := sum_le_length_mul
        ((boundsPoints img1).map fun p =>
          pixDelta (img1.At p.1 p.2) ((reconciled resample algo img1 img2).At p.1 p.2)) 765 ?_
      · simpa [List.length_map] using this
      · intro v hv
        obtain ⟨p, _, rfl⟩ := List.mem_map.mp hv
        exact pixDelta_le765 (h1 p.1 p.2) (h22 p.1 p.2)
    have hn : 0 < (boundsPoints img1).length := by
      rw [boundsPoints_length]
      have hx : 0 < img1.Dx.toNat := by omega
      have hy : 0 < img1.Dy.toNat := by omega
      exact Nat.mul_pos hy hx
    show (diffTotal resample algo img1 img2 : ℚ) /
        (((boundsPoints img1).length * 3 : Nat) : ℚ) ≤ 255
    rw [div_le_iff₀ (by positivity)]
    push_cast
    have : (diffTotal resample algo img1 img2 : ℚ) ≤ ((boundsPoints img1).length : ℚ) * 765 := by
      exact_mod_cast hbound
    linarith

/-- Witness for `diff_metrics_spec`: a 1×1 black first image against a 1×1
white second image with the identity resampler. -/
theorem diff_metrics_spec_witness :
    0 < blackImg1.Dx ∧ 0 < blackImg1.Dy ∧ blackImg1.Wf ∧ whiteImg1.Wf ∧
    (∀ a im w h, im.Wf → (idResample a im w h).Wf) ∧
    ((computeImageDiffFast idResample blackImg1 whiteImg1 ScalingAlgorithm.bilinear false).pixelCount =
        blackImg1.Dx.toNat * blackImg1.Dy.toNat ∧
      (computeImageDiffFast idResample blackImg1 whiteImg1 ScalingAlgorithm.bilinear false).mae =
        (diffTotal idResample ScalingAlgorithm.bilinear blackImg1 whiteImg1 : ℚ) /
          (((computeImageDiffFast idResample blackImg1 whiteImg1
              ScalingAlgorithm.bilinear false).pixelCount * 3 : Nat) : ℚ) ∧
      0 ≤ (computeImageDiffFast idResample blackImg1 whiteImg1 ScalingAlgorithm.bilinear false).mae ∧
      (computeImageDiffFast idResample blackImg1 whiteImg1 ScalingAlgorithm.bilinear false).mae ≤ 255) :=
  ⟨by decide, by decide, fun x y => by simp [blackImg1], fun x y => by simp [whiteImg1],
   fun _ _ _ _ h => h,
   diff_metrics_spec idResample blackImg1 whiteImg1 ScalingAlgorithm.bilinear false
     (by decide) (by decide) (fun x y => by simp [blackImg1]) (fun x y => by simp [whiteImg1])
     (fun _ _ _ _ h => h)⟩

/-- C8 counterexample: `ComputeImageDiffFast` has no structural guard against
empty bounds. On a first image with the empty bounds rectangle
`Rect(0, 0, 0, 0)` the loop body never runs, `pixelCount` is zero, and the
metric divides by `pixelCount * 3 = 0` (a `0.0 / 0.0 = NaN` in the Go code),
refuting the claim that a zero `pixelCount` is structurally impossible for
every input pair. -/
theorem divzero_counterexample :
    (computeImageDiffFast idResample emptyImg emptyImg ScalingAlgorithm.bilinear false).pixelCount = 0 ∧
    (computeImageDiffFast idResample emptyImg emptyImg ScalingAlgorithm.bilinear false).pixelCount * 3 = 0 := by
  decide

/-- C8 amended: whenever the first image's bounds are non-empty, the pixel
count is positive and the metric's divisor `pixelCount * 3` is non-zero, so
the returned mean absolute error is a well-defined number. -/
theorem divzero_amended (resample : ScalingAlgorithm → Img → Int → Int → Img)
    (img1 img2 : Img) (algo : ScalingAlgorithm) (mono : Bool)
    (hw : 0 < img1.Dx) (hh : 0 < img1.Dy) :
    0 < (computeImageDiffFast resample img1 img2 algo mono).pixelCount ∧
    (computeImageDiffFast resample img1 img2 algo mono).pixelCount * 3 ≠ 0 := by
  have hcount : (computeImageDiffFast resample img1 img2 algo mono).pixelCount =
      img1.Dy.toNat * img1.Dx.toNat := by
    show (boundsPoints img1).length = _
    exact boundsPoints_length img1
  rw [hcount]
  have hx : 0 < img1.Dx.toNat := by omega
  have hy : 0 < img1.Dy.toNat := by omega
  have h3 : 0 < img1.Dy.toNat * img1.Dx.toNat := Nat.mul_pos hy hx
  exact ⟨h3, by omega⟩

/-- Witness for `divzero_amended` on a concrete non-empty pair. -/
theorem divzero_amended_witness :
    0 < blackImg1.Dx ∧ 0 < blackImg1.Dy ∧
    (0 < (computeImageDiffFast idResample blackImg1 whiteImg1 ScalingAlgorithm.bilinear false).pixelCount ∧
     (computeImageDiffFast idResample blackImg1 whiteImg1 ScalingAlgorithm.bilinear false).pixelCount * 3 ≠ 0) :=
  ⟨by decide, by decide,
    divzero_amended idResample blackImg1 whiteImg1 ScalingAlgorithm.bilinear false
      (by decide) (by decide)⟩

/-- Modelled from the spec: the bounds-reconciliation resize is performed by
the third-party `imaging.Resize`, whose code is not part of this repository.
Per the spec's Scaler contract, "NearestNeighbor selects the single closest
source sample" per output pixel: the centre of destination pixel `x` maps to
source column `floor((x + 1/2) * srcW / w)`, and likewise for rows. The output
image has bounds `(0, 0, w, h)` as `imaging.Resize` returns. -/
def nearestResample (src : Img) (w h : Int) : Img :=
  { minX := 0, minY := 0, maxX := w, maxY := h,
    At := fun x y =>
      src.At (src.minX + ((2 * x + 1) * src.Dx) / (2 * w))
             (src.minY + ((2 * y + 1) * src.Dy) / (2 * h)) }

/-- Modelled from the spec: the `resample` parameter instantiated with the
nearest-neighbor filter (the claim's counterexample selects the
`NearestNeighbor` scaling algorithm, for which the diff engine picks the
`imaging.NearestNeighbor` filter). -/
def specResample : ScalingAlgorithm → Img → Int → Int → Img :=
  fun _ src w h => nearestResample src w h

/-- C9 counterexample: with images of different bounds the reconciliation
resize always targets the first argument's frame, so the metric is not
symmetric. A 1×1 black image against a 2×1 black-then-white image gives
`mae = 255` one way (the nearest sample of the downscaled second image is its
white pixel) and `mae = 765/6 = 127.5` the other way. -/
theorem mae_symm_counterexample :
    (computeImageDiffFast specResample blackImg1 blackWhiteImg2
        ScalingAlgorithm.nearestNeighbor false).mae ≠
    (computeImageDiffFast specResample blackWhiteImg2 blackImg1
        ScalingAlgorithm.nearestNeighbor false).mae := by
  have h1 : diffTotal specResample ScalingAlgorithm.nearestNeighbor blackImg1 blackWhiteImg2 = 765 := by
    decide
  have h2 : diffTotal specResample ScalingAlgorithm.nearestNeighbor blackWhiteImg2 blackImg1 = 765 := by
    decide
  have l1 : (boundsPoints blackImg1).length = 1 := by decide
  have l2 : (boundsPoints blackWhiteImg2).length = 2 := by decide
  show (diffTotal specResample ScalingAlgorithm.nearestNeighbor blackImg1 blackWhiteImg2 : ℚ) /
      (((boundsPoints blackImg1).length * 3 : ℕ) : ℚ) ≠
    (diffTotal specResample ScalingAlgorithm.nearestNeighbor blackWhiteImg2 blackImg1 : ℚ) /
      (((boundsPoints blackWhiteImg2).length * 3 : ℕ) : ℚ)
  rw [h1, h2, l1, l2]
  norm_num

/-- C9 amended: the mean absolute error is symmetric whenever the two images
have equal non-empty bounds, so that no reconciliation resize occurs. (The
non-emptiness hypotheses match the Go code, where two empty-bounds inputs
yield `NaN` on both sides, and `NaN` is not equal to itself.) -/
theorem mae_symm_amended (resample : ScalingAlgorithm → Img → Int → Int → Img)
    (img1 img2 : Img) (algo : ScalingAlgorithm) (mono : Bool)
    (e1 : img1.minX = img2.minX) (e2 : img1.minY = img2.minY)
    (e3 : img1.maxX = img2.maxX) (e4 : img1.maxY = img2.maxY)
    (hw : 0 < img1.Dx) (hh : 0 < img1.Dy) :
    (computeImageDiffFast resample img1 img2 algo mono).mae =
      (computeImageDiffFast resample img2 img1 algo mono).mae := by
  have hEq12 : rectEqB img2 img1 = true := by
    simp [rectEqB, e1, e2, e3, e4]
  have hEq21 : rectEqB img1 img2 = true := by
    simp [rectEqB, e1, e2, e3, e4]
  have hrec12 : reconciled resample algo img1 img2 = img2 := by
    simp [reconciled, hEq12]
  have hrec21 : reconciled resample algo img2 img1 = img1 := by
    simp [reconciled, hEq21]
  have hbp : boundsPoints img1 = boundsPoints img2 := by
    unfold boundsPoints Img.Dx Img.Dy
    rw [e1, e2, e3, e4]
  have htd : diffTotal resample algo img1 img2 = diffTotal resample algo img2 img1 := by
    unfold diffTotal
    rw [hrec12, hrec21, hbp]
    exact congrArg List.sum (List.map_congr_left fun p _ => pixDelta_comm _ _)
  show (diffTotal resample algo img1 img2 : ℚ) /
      (((boundsPoints img1).length * 3 : ℕ) : ℚ) =
    (diffTotal resample algo img2 img1 : ℚ) /
      (((boundsPoints img2).length * 3 : ℕ) : ℚ)
  rw [htd, hbp]

/-- Witness for `mae_symm_amended` on two concrete equal-bounds images. -/
theorem mae_symm_amended_witness :
    blackImg1.minX = whiteImg1.minX ∧ blackImg1.minY = whiteImg1.minY ∧
    blackImg1.maxX = whiteImg1.maxX ∧ blackImg1.maxY = whiteImg1.maxY ∧
    0 < blackImg1.Dx ∧ 0 < blackImg1.Dy ∧
    (computeImageDiffFast idResample blackImg1 whiteImg1 ScalingAlgorithm.bilinear false).mae =
      (computeImageDiffFast idResample whiteImg1 blackImg1 ScalingAlgorithm.bilinear false).mae :=
  ⟨by decide, by decide, by decide, by decide, by decide, by decide,
    mae_symm_amended idResample blackImg1 whiteImg1 ScalingAlgorithm.bilinear false
      (by decide) (by decide) (by decide) (by decide) (by decide) (by decide)⟩

/-- The properties the scaled-bounds claim asserts of `GetScaledBounds` for a
given width and height, with "exactly one dimension equals its bound"
weakened to "at least one" (the amendment): dimensions within the box are
returned unchanged; neither output exceeds the box; the aspect ratio is
preserved exactly; and outside the box at least one output equals its bound. -/
def scaledBoundsSpec (w h : Int) : Prop :=
  (w ≤ imageMaxWidth ∧ h ≤ imageMaxHeight → getScaledBoundsWH w h = ((w : ℚ), (h : ℚ))) ∧
  (getScaledBoundsWH w h).1 ≤ 400 ∧ (getScaledBoundsWH w h).2 ≤ 400 ∧
  (getScaledBoundsWH w h).1 * (h : ℚ) = (getScaledBoundsWH w h).2 * (w : ℚ) ∧
  (¬(w ≤ imageMaxWidth ∧ h ≤ imageMaxHeight) →
    (getScaledBoundsWH w h).1 = 400 ∨ (getScaledBoundsWH w h).2 = 400)

/-- C5 counterexample: a 500×500 source does not fit the 400×400 box, and
`GetScaledBounds` returns `(400, 400)` — both output dimensions equal their
box bound, so "exactly one output dimension exactly equals its box bound" is
false. (The `float32` arithmetic is exact at this input: `500/400 = 1.25` and
`500/1.25 = 400` are exactly representable.) -/
theorem scaled_bounds_counterexample :
    ¬((500:ℤ) ≤ imageMaxWidth ∧ (500:ℤ) ≤ imageMaxHeight) ∧
    getScaledBoundsWH 500 500 = (400, 400) ∧
    ¬(((getScaledBoundsWH 500 500).1 = 400 ∧ (getScaledBoundsWH 500 500).2 ≠ 400) ∨
      ((getScaledBoundsWH 500 500).1 ≠ 400 ∧ (getScaledBoundsWH 500 500).2 = 400)) := by
  have hv : getScaledBoundsWH 500 500 = (400, 400) := by
    norm_num [getScaledBoundsWH, imageMaxWidth, imageMaxHeight]
  refine ⟨by norm_num [imageMaxWidth], hv, ?_⟩
  rw [hv]
  norm_num

/-- C5 amended: for positive dimensions, `GetScaledBounds` returns them
unchanged when both are within the 400×400 box, and otherwise returns
dimensions within the box, preserving the aspect ratio, with at least one
output dimension exactly equal to its box bound. -/
theorem scaled_bounds_amended (w h : Int) (hw : 0 < w) (hh : 0 < h) :
    scaledBoundsSpec w h := by
  have hwQ : (0:ℚ) < (w:ℚ) := by exact_mod_cast hw
  have hhQ : (0:ℚ) < (h:ℚ) := by exact_mod_cast hh
  unfold scaledBoundsSpec getScaledBoundsWH imageMaxWidth imageMaxHeight
  by_cases hbig : w > 400 ∨ h > 400
  · rw [if_pos hbig]
    by_cases hxy : (w:ℚ)/400 > (h:ℚ)/400
    · rw [if_pos hxy]
      have hhw : h < w := by
        have : (h:ℚ) < (w:ℚ) := by linarith
        exact_mod_cast this
      have hw400 : (400:ℤ) < w := by omega
      refine ⟨?_, ?_, ?_, ?_, ?_⟩
      · intro hc; omega
      · norm_num
      · show (h:ℚ) / ((w:ℚ)/400) ≤ 400
        rw [div_le_iff₀ (by positivity)]
        have : (h:ℚ) ≤ (w:ℚ) := by exact_mod_cast hhw.le
        calc (h:ℚ) ≤ (w:ℚ) := this
          _ = 400 * ((w:ℚ)/400) := by ring
      · show (400:ℚ) * (h:ℚ) = (h:ℚ) / ((w:ℚ)/400) * (w:ℚ)
        field_simp
        ring
      · intro _; left; rfl
    · rw [if_neg hxy]
      have hwh : w ≤ h := by
        have : (w:ℚ) ≤ (h:ℚ) := by
          have := not_lt.mp hxy
          linarith
        exact_mod_cast this
      have hh400 : (400:ℤ) < h := by omega
      refine ⟨?_, ?_, ?_, ?_, ?_⟩
      · intro hc; omega
      · show (w:ℚ) / ((h:ℚ)/400) ≤ 400
        rw [div_le_iff₀ (by positivity)]
        have : (w:ℚ) ≤ (h:ℚ) := by exact_mod_cast hwh
        calc (w:ℚ) ≤ (h:ℚ) := this
          _ = 400 * ((h:ℚ)/400) := by ring
      · norm_num
      · show (w:ℚ) / ((h:ℚ)/400) * (h:ℚ) = (400:ℚ) * (w:ℚ)
        field_simp
        ring
      · intro _; right; rfl
  · rw [if_neg hbig]
    push_neg at hbig
    refine ⟨fun _ => rfl, ?_, ?_, ?_, ?_⟩
    · show (w:ℚ) ≤ 400
      exact_mod_cast hbig.1
    · show (h:ℚ) ≤ 400
      exact_mod_cast hbig.2
    · show (w:ℚ) * (h:ℚ) = (h:ℚ) * (w:ℚ)
      ring
    · intro hc
      exact absurd ⟨hbig.1, hbig.2⟩ hc

/-- Witness for `scaled_bounds_amended` at the concrete dimensions 800×600. -/
theorem scaled_bounds_amended_witness :
    0 < (800:ℤ) ∧ 0 < (600:ℤ) ∧ scaledBoundsSpec 800 600 :=
  ⟨by decide, by decide, scaled_bounds_amended 800 600 (by decide) (by decide)⟩

theorem clampRatio_nonneg (q : ℚ) : 0 ≤ clampRatio q := by
  by_cases h : (max 0 q : ℚ) > 1 <;> simp [clampRatio, h]

theorem clampRatio_le_one (q : ℚ) : clampRatio q ≤ 1 := by
  by_cases h : (max 0 q : ℚ) > 1
  · simp [clampRatio, h]
  · simp only [clampRatio, if_neg h]
    exact le_of_not_lt h

theorem clampRatio_of_nonpos {q : ℚ} (hq : q ≤ 0) : clampRatio q = 0 := by
  have hm : (max 0 q : ℚ) = 0 := max_eq_left hq
  simp [clampRatio, hm]

theorem clampRatio_one : clampRatio 1 = 1 := by
  norm_num [clampRatio]

/-- The properties the crop claim asserts of the pre-scale intermediate image,
for a source whose bounds start at the origin: the ratio is clamped to
`[0, 1]`; the intermediate keeps the full `(w, h)` size; columns `[0, cutX)`
are copied from the source (through Go's 8-bit `color.RGBA` conversion, which
is the identity for 8-bit sources); columns `[cutX, w)` — indeed everything
outside the copied region — are blank/transparent; ratio ≤ 0 yields an
entirely blank canvas; ratio = 1 copies every in-bounds pixel. -/
def cropSpecProp (src : Img) (q : ℚ) : Prop :=
  0 ≤ clampRatio q ∧ clampRatio q ≤ 1 ∧
  ((cropImageFastPre src q).minX = 0 ∧ (cropImageFastPre src q).minY = 0 ∧
   (cropImageFastPre src q).maxX = src.Dx ∧ (cropImageFastPre src q).maxY = src.Dy) ∧
  (∀ x y, 0 ≤ x → x < Int.floor ((src.Dx : ℚ) * clampRatio q) → 0 ≤ y → y < src.Dy →
    (cropImageFastPre src q).At8 x y = pixTo8 (src.At x y)) ∧
  (∀ x y, Int.floor ((src.Dx : ℚ) * clampRatio q) ≤ x →
    (cropImageFastPre src q).At8 x y = ⟨0, 0, 0, 0⟩) ∧
  (q ≤ 0 → ∀ x y, (cropImageFastPre src q).At8 x y = ⟨0, 0, 0, 0⟩) ∧
  (q = 1 → Int.floor ((src.Dx : ℚ) * clampRatio q) = src.Dx ∧
    ∀ x y, 0 ≤ x → x < src.Dx → 0 ≤ y → y < src.Dy →
      (cropImageFastPre src q).At8 x y = pixTo8 (src.At x y))

/-- C4 counterexample: the claim fails for a source image whose bounds do not
start at the origin. For the 1×1 all-white image with bounds `Rect(1, 0, 2, 1)`
and ratio 1, `cutX = 1`, so column 0 lies in `[0, cutX)` and should be copied
pixel-identically — but `draw.Draw` clips the copy against the source bounds
(the source point is `(0, 0)` while the source starts at x = 1), so the output
pixel at `(0, 0)` is blank even though every source pixel is white; the
ratio-1 result is not a pixel-identical copy. -/
theorem crop_counterexample :
    Int.floor ((offOriginImg.Dx : ℚ) * clampRatio 1) = 1 ∧
    (cropImageFastPre offOriginImg 1).At8 0 0 = ⟨0, 0, 0, 0⟩ ∧
    pixTo8 (offOriginImg.At 0 0) ≠ ⟨0, 0, 0, 0⟩ := by
  have hf : Int.floor ((offOriginImg.Dx : ℚ) * clampRatio 1) = 1 := by
    norm_num [clampRatio, offOriginImg, Img.Dx]
  refine ⟨hf, ?_, by decide⟩
  simp +decide [cropImageFastPre, hf, offOriginImg, Img.Dx, Img.Dy]

/-- C4 amended: for every source image whose bounds have origin `(0, 0)` and
non-negative width, `CropImageFast` clamps the ratio to `[0, 1]`, computes
`cutX = floor(w * ratio)`, and builds a full-size intermediate in which columns
`[0, cutX)` are copied from the source (through the 8-bit `color.RGBA`
conversion, the identity for 8-bit sources) and columns `[cutX, w)` are
blank/transparent; a non-positive ratio yields an entirely blank canvas and
ratio 1 copies every in-bounds pixel. -/
theorem crop_spec_amended (src : Img) (q : ℚ)
    (h0x : src.minX = 0) (h0y : src.minY = 0) (hwpos : 0 ≤ src.Dx) :
    cropSpecProp src q := by
  have hmaxX : src.maxX = src.Dx := by
    unfold Img.Dx; omega
  have hmaxY : src.maxY = src.Dy := by
    unfold Img.Dy; omega
  have hendle : Int.floor ((src.Dx : ℚ) * clampRatio q) ≤ src.Dx := by
    have hmul : (src.Dx : ℚ) * clampRatio q ≤ (src.Dx : ℚ) :=
      mul_le_of_le_one_right (by exact_mod_cast hwpos) (clampRatio_le_one q)
    calc Int.floor ((src.Dx : ℚ) * clampRatio q) ≤ Int.floor ((src.Dx : ℚ)) :=
          Int.floor_le_floor hmul
      _ = src.Dx := Int.floor_intCast _
  have hcopy : ∀ x y, 0 ≤ x → x < Int.floor ((src.Dx : ℚ) * clampRatio q) → 0 ≤ y → y < src.Dy →
      (cropImageFastPre src q).At8 x y = pixTo8 (src.At x y) := by
    intro x y hx hex hy hyh
    have hcond : 0 ≤ x ∧ x < Int.floor ((src.Dx : ℚ) * clampRatio q) ∧ 0 ≤ y ∧ y < src.Dy ∧
        x < src.Dx ∧ src.minX ≤ x ∧ x < src.maxX ∧ src.minY ≤ y ∧ y < src.maxY := by
      refine ⟨hx, hex, hy, hyh, lt_of_lt_of_le hex hendle, ?_, ?_, ?_, ?_⟩
      · omega
      · omega
      · omega
      · omega
    simp only [cropImageFastPre]
    rw [if_pos hcond]
  refine ⟨clampRatio_nonneg q, clampRatio_le_one q, ⟨rfl, rfl, rfl, rfl⟩, hcopy, ?_, ?_, ?_⟩
  · intro x y hx
    simp only [cropImageFastPre]
    rw [if_neg]
    intro hc
    exact absurd hc.2.1 (not_lt.mpr hx)
  · intro hq x y
    have hz : Int.floor ((src.Dx : ℚ) * clampRatio q) = 0 := by
      rw [clampRatio_of_nonpos hq]
      norm_num
    simp only [cropImageFastPre]
    rw [if_neg]
    intro hc
    have := hc.1
    have := hc.2.1
    omega
  · intro hq
    subst hq
    have hend : Int.floor ((src.Dx : ℚ) * clampRatio 1) = src.Dx := by
      rw [clampRatio_one, mul_one, Int.floor_intCast]
    exact ⟨hend, fun x y hx hxw hy hyh => hcopy x y hx (by omega) hy hyh⟩

/-- Witness for `crop_spec_amended` on a concrete origin-based 2×1 image at
ratio 1/2. -/
theorem crop_spec_amended_witness :
    blackWhiteImg2.minX = 0 ∧ blackWhiteImg2.minY = 0 ∧ 0 ≤ blackWhiteImg2.Dx ∧
    cropSpecProp blackWhiteImg2 (1/2) :=
  ⟨by decide, by decide, by decide,
    crop_spec_amended blackWhiteImg2 (1/2) (by decide) (by decide) (by decide)⟩

/-- C6 counterexample: when the external conversion fails after writing
(possibly partial) output, `LoadImage` returns before the `defer os.Remove`
is registered, so the temporary file is written but never removed — refuting
"removes the temporary converted file regardless of whether the conversion
step or the subsequent decode step succeeds or fails". -/
theorem load_cleanup_counterexample :
    goExt "a.jxl" = ".jxl" ∧
    FsEvent.writeFile "a.jxl.converted.png" ∈
      (loadImage ⟨true, false, true, true⟩ "a.jxl").2 ∧
    FsEvent.removeFile "a.jxl.converted.png" ∉
      (loadImage ⟨true, false, true, true⟩ "a.jxl").2 := by
  decide

/-- C6 amended: for every `.jxl` path, whenever the conversion step succeeds,
`LoadImage` removes the temporary converted file regardless of whether the
subsequent decode step succeeds or fails; after a failed conversion the
temporary file is not removed. -/
theorem load_cleanup_amended (env : ExecEnv) (path : String)
    (hext : goExt path = ".jxl") (htool : env.toolOnPath = true)
    (hconv : env.convertExitOk = true) :
    FsEvent.removeFile (path ++ ".converted.png") ∈ (loadImage env path).2 := by
  simp [loadImage, hext, htool, hconv]

/-- Witness for `load_cleanup_amended`: a successful conversion followed by a
failed decode still removes the temporary file. -/
theorem load_cleanup_amended_witness :
    goExt "a.jxl" = ".jxl" ∧
    (ExecEnv.mk true true false false).toolOnPath = true ∧
    (ExecEnv.mk true true false false).convertExitOk = true ∧
    FsEvent.removeFile ("a.jxl" ++ ".converted.png") ∈
      (loadImage (ExecEnv.mk true true false false) "a.jxl").2 :=
  ⟨by decide, rfl, rfl,
    load_cleanup_amended (ExecEnv.mk true true false false) "a.jxl" (by decide) rfl rfl⟩

/-- C7: for every `.jxl` path, when the external converter is absent from the
execution environment, `LoadImage` returns the executable-not-found error
(Go's `exec.Command` resolves the binary via `LookPath` at the call site and
`Run` returns that error without starting any process), and its effect trace
is empty — in particular no file writes and no process spawn are attempted. -/
theorem load_tool_missing (env : ExecEnv) (path : String)
    (hext : goExt path = ".jxl") (htool : env.toolOnPath = false) :
    (loadImage env path).1 = Except.error LoadErr.execNotFound ∧
    (loadImage env path).2 = [] := by
  simp [loadImage, hext, htool]

/-- Witness for `load_tool_missing` on a concrete `.jxl` path. -/
theorem load_tool_missing_witness :
    goExt "a.jxl" = ".jxl" ∧
    (ExecEnv.mk false true true true).toolOnPath = false ∧
    ((loadImage (ExecEnv.mk false true true true) "a.jxl").1 =
        Except.error LoadErr.execNotFound ∧
      (loadImage (ExecEnv.mk false true true true) "a.jxl").2 = []) :=
  ⟨by decide, rfl,
    load_tool_missing (ExecEnv.mk false true true true) "a.jxl" (by decide) rfl⟩

end ImgComp
